import Mathlib

/-!
Shallow embedding of the document-synchronization core of the yorkie server:
the pull stage (yorkie/packs/pull.go), the MongoDB-backed store operations
(yorkie/backend/db/mongo/client.go) and the in-memory lock manager
(yorkie/backend/sync/memory/locker.go).

The store collections are modelled as Lean lists kept in insertion order
(MongoDB natural order); a Find without a sort returns matches in that order,
a FindOne with a sort returns a row attaining the extremum, and UpdateOne,
FindOneAndUpdate and DeleteOne touch the first matching row.  Machine
integers (uint64 sequence numbers, uint32 client sequences) are modelled as
Nat: every subtraction in the embedded code is guarded by a comparison in the
source, so no wrap-around is observable.
-/

namespace Yorkie

/-- Identifiers (db.ID, actor ids): hex strings in the source. -/
abbrev ID := String

/-- Opaque byte blobs (snapshots, encoded operations). -/
abbrev Bytes := List Nat

/-- Is the character a hexadecimal digit? -/
def isHexChar (c : Char) : Bool :=
  c.isDigit || (decide ('a' ≤ c) && decide (c ≤ 'f')) || (decide ('A' ≤ c) && decide (c ≤ 'F'))

/-- Shallow model of encodeID (mongo package): converting a db.ID to a Mongo
ObjectID succeeds exactly on 24-character hex strings, and the encoded form is
identified with the ID itself. -/
def encodeID (id : ID) : Option ID :=
  if id.length = 24 && id.data.all isHexChar then some id else none

/-- Checkpoint (serverSeq, clientSeq): the client-local view of sync progress. -/
structure Checkpoint where
  serverSeq : Nat
  clientSeq : Nat
deriving DecidableEq, Repr

/-- Modelled from the spec: NextServerSeq(s) returns a checkpoint with the given
serverSeq and the same clientSeq (pkg/document/checkpoint is not under src/). -/
def Checkpoint.nextServerSeq (cp : Checkpoint) (serverSeq : Nat) : Checkpoint :=
  { cp with serverSeq := serverSeq }

/-- Modelled from the spec: the initial checkpoint is (0, 0). -/
def Checkpoint.initial : Checkpoint := ⟨0, 0⟩

/-- Ticket (lamport, delimiter, actorID): logical timestamp used for GC. -/
structure Ticket where
  lamport : Nat
  delimiter : Nat
  actor : ID
deriving DecidableEq, Repr

/-- Modelled from the spec: MaxDelimiter marks the end of a lamport step
(pkg/document/time is not under src/; the delimiter is a uint32). -/
def maxDelimiter : Nat := 2 ^ 32 - 1

/-- Modelled from the spec: InitialTicket is the zero value, used when no
synced seqs exist (pkg/document/time is not under src/). -/
def initialTicket : Ticket := ⟨0, 0, "000000000000000000000000"⟩

/-- Per-document attachment status of a client. -/
inductive AttachStatus
  | attached
  | detached
deriving DecidableEq, Repr

/-- Per-document state stored in a client record. -/
structure ClientDocInfo where
  serverSeq : Nat
  clientSeq : Nat
  status : AttachStatus
deriving DecidableEq, Repr

/-- Client activation status. -/
inductive ClientStatus
  | activated
  | deactivated
deriving DecidableEq, Repr

/-- db.ClientInfo: a client with its per-document attachment states. -/
structure ClientInfo where
  id : ID
  key : String
  status : ClientStatus
  documents : List (ID × ClientDocInfo)
  updatedAt : Nat
deriving DecidableEq, Repr

/-- Equality of Except values is decidable when both components are. -/
def exceptDecEq {ε α : Type} [DecidableEq ε] [DecidableEq α] :
    DecidableEq (Except ε α)
  | .error a, .error b =>
    if h : a = b then isTrue (congrArg Except.error h)
    else isFalse (fun hc => h (by injection hc))
  | .error _, .ok _ => isFalse (fun hc => Except.noConfusion hc)
  | .ok _, .error _ => isFalse (fun hc => Except.noConfusion hc)
  | .ok a, .ok b =>
    if h : a = b then isTrue (congrArg Except.ok h)
    else isFalse (fun hc => h (by injection hc))

instance {ε α : Type} [DecidableEq ε] [DecidableEq α] : DecidableEq (Except ε α) :=
  exceptDecEq

/-- Error taxonomy of the embedded functions. -/
inductive Err
  | encodeError
  | clientNotFound
  | documentNotFound
  | conflictOnUpdate
  | invalidServerSeq
  | notAttachedToDocument
deriving DecidableEq, Repr

/-- Modelled from the spec: a client's per-document state has status in
Attached or Detached; db.ClientInfo.IsAttached is not under src/.  It fails
when the client holds no state for the document and otherwise reports whether
the stored status is Attached. -/
def ClientInfo.isAttached (ci : ClientInfo) (docId : ID) : Except Err Bool :=
  match ci.documents.lookup docId with
  | none => .error .notAttachedToDocument
  | some cdi => .ok (cdi.status == .attached)

/-- Document key (collection, document name). -/
structure DocKey where
  collection : String
  document : String
deriving DecidableEq, Repr

/-- db.DocInfo: a document with its current serverSeq. -/
structure DocInfo where
  id : ID
  key : DocKey
  owner : ID
  serverSeq : Nat
deriving DecidableEq, Repr

/-- DocInfo.GetKey: the key is modelled structurally, so retrieving it is
total (the source parses a stored BSON key string). -/
def DocInfo.getKey (d : DocInfo) : DocKey := d.key

/-- A persisted change row of the changes collection. -/
structure ChangeInfo where
  docId : ID
  serverSeq : Nat
  actor : ID
  clientSeq : Nat
  lamport : Nat
  message : String
  operations : List Bytes
deriving DecidableEq, Repr

/-- change.Change: a pushed change carrying an assigned serverSeq. -/
structure Change where
  serverSeq : Nat
  actor : ID
  clientSeq : Nat
  lamport : Nat
  message : String
  operations : List Bytes
deriving DecidableEq, Repr

/-- The change row written by the upsert in StoreChangeInfos. -/
def changeRecord (docId : ID) (cn : Change) : ChangeInfo :=
  ⟨docId, cn.serverSeq, cn.actor, cn.clientSeq, cn.lamport, cn.message, cn.operations⟩

/-- A persisted snapshot row. -/
structure SnapshotInfo where
  docId : ID
  serverSeq : Nat
  snapshot : Bytes
deriving DecidableEq, Repr

/-- The Go zero value of db.SnapshotInfo: ServerSeq 0 and nil bytes. -/
def SnapshotInfo.zero : SnapshotInfo := ⟨"", 0, []⟩

/-- A persisted synced-seq row: (docID, clientID) mapped to a serverSeq. -/
structure SyncedSeqInfo where
  docId : ID
  clientId : ID
  serverSeq : Nat
deriving DecidableEq, Repr

/-- The outcome of bson decoding of a fetched client row: either it decodes to
the stored info, or decoding fails midway leaving a partially-decoded value. -/
inductive DecodeOutcome
  | ok
  | failed (leftover : ClientInfo)
deriving DecidableEq, Repr

/-- A raw row of the clients collection together with how it decodes. -/
structure ClientRecord where
  info : ClientInfo
  decode : DecodeOutcome
deriving DecidableEq, Repr

/-- The persisted state: the five collections, each in insertion order. -/
structure Store where
  clients : List ClientRecord
  documents : List DocInfo
  changes : List ChangeInfo
  snapshots : List SnapshotInfo
  syncedSeqs : List SyncedSeqInfo
deriving DecidableEq, Repr

/-- backend.Config: the snapshot threshold consulted by the pull stage. -/
structure Config where
  snapshotThreshold : Nat
deriving DecidableEq, Repr

/-! ## Store operations (yorkie/backend/db/mongo/client.go) -/

/-- FindClientInfoByID (client.go 159-177): find the client row by id and
decode it.  A missing row is ClientNotFound; any other decode failure is NOT
returned — the partially-decoded value is returned with a nil error. -/
def FindClientInfoByID (s : Store) (clientID : ID) : Except Err ClientInfo :=
  match encodeID clientID with
  | none => .error .encodeError
  | some enc =>
    match s.clients.find? (fun r => r.info.id == enc) with
    | none => .error .clientNotFound
    | some r =>
      match r.decode with
      | .ok => .ok r.info
      | .failed leftover => .ok leftover

/-- Replace the entry of the given document id, or append it (the semantics of
a $set / $max update on the per-document subdocument of a client row). -/
def setEntry (docs : List (ID × ClientDocInfo)) (docId : ID) (e : ClientDocInfo) :
    List (ID × ClientDocInfo) :=
  match docs with
  | [] => [(docId, e)]
  | (k, v) :: rest =>
    if k == docId then (k, e) :: rest else (k, v) :: setEntry rest docId e

/-- Update the first client row with the given key (FindOneAndUpdate). -/
def updateFirstClient (rs : List ClientRecord) (k : String) (f : ClientRecord → ClientRecord) :
    List ClientRecord :=
  match rs with
  | [] => []
  | r :: rest =>
    if r.info.key == k then f r :: rest else r :: updateFirstClient rest k f

/-- The per-document entry written by UpdateClientInfoAfterPushPull: when the
client is attached the $max operator keeps the larger of the stored and given
sequences (a missing field is created with the given value) and $set stores the
status; when detached both sequences are $set to 0. -/
def pushPullEntry (attached : Bool) (old : Option ClientDocInfo) (cdi : ClientDocInfo) :
    ClientDocInfo :=
  if attached then
    match old with
    | some o => ⟨max o.serverSeq cdi.serverSeq, max o.clientSeq cdi.clientSeq, cdi.status⟩
    | none => cdi
  else ⟨0, 0, cdi.status⟩

/-- UpdateClientInfoAfterPushPull (client.go 181-229). -/
def UpdateClientInfoAfterPushPull (s : Store) (clientInfo : ClientInfo) (docInfo : DocInfo) :
    Store × Option Err :=
  let cdi := (clientInfo.documents.lookup docInfo.id).getD ⟨0, 0, .detached⟩
  match clientInfo.isAttached docInfo.id with
  | .error e => (s, some e)
  | .ok attached =>
    match s.clients.find? (fun r => r.info.key == clientInfo.key) with
    | none => (s, some .clientNotFound)
    | some _ =>
      let upd := fun (r : ClientRecord) =>
        { r with info :=
          { r.info with
            documents := setEntry r.info.documents docInfo.id
              (pushPullEntry attached (r.info.documents.lookup docInfo.id) cdi),
            updatedAt := clientInfo.updatedAt } }
      ({ s with clients := updateFirstClient s.clients clientInfo.key upd }, none)

/-- Upsert a change row keyed by (doc_id, server_seq): replace the first row
with that key, or append a new row. -/
def upsertChange (cs : List ChangeInfo) (docId : ID) (cn : Change) : List ChangeInfo :=
  match cs with
  | [] => [changeRecord docId cn]
  | c :: rest =>
    if c.docId == docId && c.serverSeq == cn.serverSeq then changeRecord docId cn :: rest
    else c :: upsertChange rest docId cn

/-- The compare-and-set of StoreChangeInfos: UpdateOne with the filter
(_id = docId, server_seq = ini) sets server_seq to new on the first matching
row; the Bool is whether any row matched. -/
def casDoc (docs : List DocInfo) (docId : ID) (ini newSeq : Nat) : List DocInfo × Bool :=
  match docs with
  | [] => ([], false)
  | d :: rest =>
    if d.id == docId && d.serverSeq == ini then ({ d with serverSeq := newSeq } :: rest, true)
    else
      let r := casDoc rest docId ini newSeq
      (d :: r.1, r.2)

/-- StoreChangeInfos (client.go 290-350): bulk-upsert the pushed changes keyed
by (doc_id, server_seq), then compare-and-set the document's server_seq from
initialServerSeq to docInfo.ServerSeq; a missed CAS is ConflictOnUpdate (the
change upserts have already happened — the source notes the lack of atomicity
as a TODO). -/
def StoreChangeInfos (s : Store) (docInfo : DocInfo) (initialServerSeq : Nat)
    (changes : List Change) : Store × Option Err :=
  match encodeID docInfo.id with
  | none => (s, some .encodeError)
  | some _ =>
    let s1 := { s with changes := changes.foldl (fun acc cn => upsertChange acc docInfo.id cn) s.changes }
    let r := casDoc s1.documents docInfo.id initialServerSeq docInfo.serverSeq
    if r.2 then ({ s1 with documents := r.1 }, none)
    else (s1, some .conflictOnUpdate)

/-- Lookup of a change row by its (doc_id, server_seq) key. -/
def findChange (cs : List ChangeInfo) (docId : ID) (seq : Nat) : Option ChangeInfo :=
  cs.find? (fun c => c.docId == docId && c.serverSeq == seq)

/-- FindChangeInfosBetweenServerSeqs (client.go 405-435): the change rows of
the document with server_seq in [fromSeq, toSeq], in natural order (the Find
carries no sort). -/
def FindChangeInfosBetweenServerSeqs (s : Store) (docID : ID) (fromSeq toSeq : Nat) :
    Except Err (List ChangeInfo) :=
  match encodeID docID with
  | none => .error .encodeError
  | some enc =>
    .ok (s.changes.filter (fun c =>
      c.docId == enc && (decide (fromSeq ≤ c.serverSeq) && decide (c.serverSeq ≤ toSeq))))

/-- FindChangesBetweenServerSeqs (client.go 380-402): delegates to
FindChangeInfosBetweenServerSeqs (the per-row ToChange conversion is the
identity in this model). -/
def FindChangesBetweenServerSeqs (s : Store) (docID : ID) (fromSeq toSeq : Nat) :
    Except Err (List ChangeInfo) :=
  FindChangeInfosBetweenServerSeqs s docID fromSeq toSeq

/-- Upsert of a synced-seq row keyed by (doc_id, client_id): $set server_seq on
the first matching row, or insert. -/
def upsertSyncedSeq (rows : List SyncedSeqInfo) (docId clientId : ID) (seq : Nat) :
    List SyncedSeqInfo :=
  match rows with
  | [] => [⟨docId, clientId, seq⟩]
  | r :: rest =>
    if r.docId == docId && r.clientId == clientId then ⟨r.docId, r.clientId, seq⟩ :: rest
    else r :: upsertSyncedSeq rest docId clientId seq

/-- DeleteOne on the synced-seq rows keyed by (doc_id, client_id). -/
def deleteFirstSyncedSeq (rows : List SyncedSeqInfo) (docId clientId : ID) :
    List SyncedSeqInfo :=
  match rows with
  | [] => []
  | r :: rest =>
    if r.docId == docId && r.clientId == clientId then rest
    else r :: deleteFirstSyncedSeq rest docId clientId

/-- A row attaining the minimal server_seq among r and rest (FindOne sorted
ascending on a nonempty result). -/
def minRow (r : SyncedSeqInfo) : List SyncedSeqInfo → SyncedSeqInfo
  | [] => r
  | x :: rest => if (minRow x rest).serverSeq < r.serverSeq then minRow x rest else r

/-- The synced-seq row of the document with minimal server_seq, if any. -/
def minSyncedSeqRow (rows : List SyncedSeqInfo) (docId : ID) : Option SyncedSeqInfo :=
  match rows.filter (fun r => r.docId == docId) with
  | [] => none
  | r :: rest => some (minRow r rest)

/-- findTicketByServerSeq (client.go 547-585): the ticket of the persisted
change with the given (docID, serverSeq): lamport from the change, delimiter
MaxDelimiter, actor the change's actor. -/
def findTicketByServerSeq (s : Store) (docID : ID) (serverSeq : Nat) : Except Err Ticket :=
  match encodeID docID with
  | none => .error .encodeError
  | some enc =>
    match findChange s.changes enc serverSeq with
    | none => .error .documentNotFound
    | some ci =>
      match encodeID ci.actor with
      | none => .error .encodeError
      | some actor => .ok ⟨ci.lamport, maxDelimiter, actor⟩

/-- UpdateAndFindMinSyncedTicket (client.go 439-512): upsert the client's
synced seq when attached, delete it when detached; then take the document's
minimal synced server_seq — none or 0 yields InitialTicket, otherwise the
ticket of the change at that seq. -/
def UpdateAndFindMinSyncedTicket (s : Store) (clientInfo : ClientInfo) (docID : ID)
    (serverSeq : Nat) : Store × Except Err Ticket :=
  match encodeID docID, encodeID clientInfo.id with
  | none, _ => (s, .error .encodeError)
  | _, none => (s, .error .encodeError)
  | some _, some _ =>
    match clientInfo.isAttached docID with
    | .error e => (s, .error e)
    | .ok attached =>
      let s1 :=
        if attached then
          { s with syncedSeqs := upsertSyncedSeq s.syncedSeqs docID clientInfo.id serverSeq }
        else
          { s with syncedSeqs := deleteFirstSyncedSeq s.syncedSeqs docID clientInfo.id }
      (s1,
        match minSyncedSeqRow s1.syncedSeqs docID with
        | none => .ok initialTicket
        | some row =>
          if row.serverSeq = 0 then .ok initialTicket
          else findTicketByServerSeq s1 docID row.serverSeq)

/-- A row attaining the maximal server_seq among r and rest (FindOne sorted
descending on a nonempty result). -/
def lastRow (r : SnapshotInfo) : List SnapshotInfo → SnapshotInfo
  | [] => r
  | x :: rest => if r.serverSeq < (lastRow x rest).serverSeq then lastRow x rest else r

/-- The snapshot row of the document with maximal server_seq, if any. -/
def lastSnapshotRow (rows : List SnapshotInfo) (docId : ID) : Option SnapshotInfo :=
  match rows.filter (fun r => r.docId == docId) with
  | [] => none
  | r :: rest => some (lastRow r rest)

/-- FindLastSnapshotInfo (client.go 515-545): the snapshot row of the document
with the highest server_seq; the zero-value SnapshotInfo when none exists. -/
def FindLastSnapshotInfo (s : Store) (docID : ID) : Except Err SnapshotInfo :=
  match encodeID docID with
  | none => .error .encodeError
  | some _ =>
    match lastSnapshotRow s.snapshots docID with
    | none => .ok SnapshotInfo.zero
    | some sn => .ok sn

/-! ## The in-memory CRDT document (opaque, modelled from the spec) -/

/-- Modelled from the spec: the in-memory document is a pair of the snapshot it
was deserialized from and the changes applied since; the CRDT operation
semantics are opaque (pkg/document and api/converter are not under src/). -/
structure InternalDocument where
  collection : String
  document : String
  baseServerSeq : Nat
  snapshotBytes : Bytes
  applied : List ChangeInfo
deriving DecidableEq, Repr

/-- Modelled from the spec: deserialize the snapshot into an in-memory document
at the snapshot's serverSeq, with no changes applied yet. -/
def NewInternalDocumentFromSnapshot (collection document : String) (serverSeq : Nat)
    (snapshot : Bytes) : InternalDocument :=
  ⟨collection, document, serverSeq, snapshot, []⟩

/-- change.Pack: document key, checkpoint, changes and optional snapshot. -/
structure ChangePack where
  docKey : DocKey
  checkpoint : Checkpoint
  changes : List ChangeInfo
  snapshot : Option Bytes
deriving DecidableEq, Repr

/-- Modelled from the spec: the opaque Apply capability — applying a change
pack appends its changes, in order, to the document. -/
def ApplyChangePack (doc : InternalDocument) (pack : ChangePack) : InternalDocument :=
  { doc with applied := doc.applied ++ pack.changes }

/-- An injective stand-in encoding of one applied change. -/
def encodeChangeInfo (c : ChangeInfo) : Bytes :=
  c.serverSeq :: c.lamport :: c.clientSeq :: (c.operations.map List.length)

/-- Modelled from the spec: the opaque Serialize capability
(converter.ObjectToBytes) — serialize the document root to bytes. -/
def ObjectToBytes (doc : InternalDocument) : Bytes :=
  doc.snapshotBytes ++ (doc.applied.map encodeChangeInfo).flatten

/-! ## The pull stage (yorkie/packs/pull.go) -/

/-- ServerPack (pack.go): the response of the pull stage.  The options record
the nil-ness of the Go slices: a changes response carries some list and no
snapshot, a snapshot response the reverse. -/
structure ServerPack where
  docKey : DocKey
  checkpoint : Checkpoint
  changeInfos : Option (List ChangeInfo)
  snapshot : Option Bytes
deriving DecidableEq, Repr

/-- NewServerPack (pack.go 244-256). -/
def NewServerPack (k : DocKey) (cp : Checkpoint) (cs : Option (List ChangeInfo))
    (snap : Option Bytes) : ServerPack :=
  ⟨k, cp, cs, snap⟩

/-- pullChangeInfos (pull.go 78-112): read the changes in
(requestPack.checkpoint.serverSeq, initialServerSeq] and advance the pushed
checkpoint's serverSeq to docInfo.ServerSeq (logging omitted). -/
def pullChangeInfos (s : Store) (docInfo : DocInfo) (requestPack : ChangePack)
    (pushedCP : Checkpoint) (initialServerSeq : Nat) :
    Except Err (Checkpoint × List ChangeInfo) :=
  match FindChangeInfosBetweenServerSeqs s docInfo.id
      (requestPack.checkpoint.serverSeq + 1) initialServerSeq with
  | .error e => .error e
  | .ok pulled => .ok (pushedCP.nextServerSeq docInfo.serverSeq, pulled)

/-- pullSnapshot (pull.go 114-193): fetch the last snapshot of the document;
when its serverSeq is at least initialServerSeq return its bytes unchanged,
otherwise rebuild by deserializing it, applying the changes in
(snapshot.serverSeq, initialServerSeq] and serializing the root (logging
omitted; clientInfo and the request pack are used only for logging). -/
def pullSnapshot (s : Store) (docInfo : DocInfo) (pushedCP : Checkpoint)
    (initialServerSeq : Nat) : Except Err (Checkpoint × Bytes) :=
  match FindLastSnapshotInfo s docInfo.id with
  | .error e => .error e
  | .ok snapshotInfo =>
    if initialServerSeq ≤ snapshotInfo.serverSeq then
      .ok (pushedCP.nextServerSeq docInfo.serverSeq, snapshotInfo.snapshot)
    else
      match FindChangesBetweenServerSeqs s docInfo.id
          (snapshotInfo.serverSeq + 1) initialServerSeq with
      | .error e => .error e
      | .ok changes =>
        .ok (pushedCP.nextServerSeq docInfo.serverSeq,
          ObjectToBytes (ApplyChangePack
            (NewInternalDocumentFromSnapshot docInfo.getKey.collection
              docInfo.getKey.document snapshotInfo.serverSeq snapshotInfo.snapshot)
            ⟨docInfo.getKey, Checkpoint.initial.nextServerSeq docInfo.serverSeq,
              changes, none⟩))

/-- pullPack (pull.go 39-76): reject a request checkpoint ahead of the server;
below the snapshot threshold answer with changes, at or above it with a
snapshot. -/
def pullPack (conf : Config) (s : Store) (docInfo : DocInfo) (requestPack : ChangePack)
    (pushedCP : Checkpoint) (initialServerSeq : Nat) : Except Err ServerPack :=
  if initialServerSeq < requestPack.checkpoint.serverSeq then
    .error .invalidServerSeq
  else if initialServerSeq - requestPack.checkpoint.serverSeq < conf.snapshotThreshold then
    match pullChangeInfos s docInfo requestPack pushedCP initialServerSeq with
    | .error e => .error e
    | .ok r => .ok (NewServerPack docInfo.getKey r.1 (some r.2) none)
  else
    match pullSnapshot s docInfo pushedCP initialServerSeq with
    | .error e => .error e
    | .ok r => .ok (NewServerPack docInfo.getKey r.1 none (some r.2))

/-! ## The in-memory lock manager (yorkie/backend/sync/memory/locker.go) -/

/-- The observable outcome of a lock call on a keyed mutex table, as a step
semantics: acquiring a free key, blocking while another session holds it, or
returning the Busy failure immediately. -/
inductive LockOutcome
  | acquired
  | blocksUntilFree
  | busy
deriving DecidableEq, Repr

/-- moby/locker Locker.Lock, given the set of currently held keys: blocks
while another session holds the key, then acquires it. -/
def lockerLock (held : List String) (key : String) : LockOutcome :=
  if held.contains key then .blocksUntilFree else .acquired

/-- internalLocker.TryLock (locker.go 40-45): the source body calls
locks.Lock — its TODO notes that Lock needs to be replaced with TryLock. -/
def internalLockerTryLock (held : List String) (key : String) : LockOutcome :=
  lockerLock held key

/-! ## Concrete instances used by witnesses and counterexamples -/

/-- A valid 24-character hex document id. -/
def docIdA : ID := "aaaaaaaaaaaaaaaaaaaaaaaa"

/-- A valid 24-character hex client id. -/
def clientIdB : ID := "bbbbbbbbbbbbbbbbbbbbbbbb"

/-- A second valid 24-character hex client id. -/
def clientIdD : ID := "dddddddddddddddddddddddd"

/-- A valid 24-character hex actor id. -/
def actorIdC : ID := "cccccccccccccccccccccccc"

/-- A document at serverSeq 2. -/
def cex1Doc : DocInfo := ⟨docIdA, ⟨"c", "d"⟩, clientIdB, 2⟩

/-- A persisted change of cex1Doc at serverSeq 2. -/
def cex1Change : ChangeInfo := ⟨docIdA, 2, actorIdC, 1, 1, "", []⟩

/-- A store holding cex1Doc, one change at serverSeq 2, and two snapshots of
it: one at serverSeq 1 and one at serverSeq 3. -/
def cex1Store : Store :=
  ⟨[], [cex1Doc], [cex1Change], [⟨docIdA, 1, [1]⟩, ⟨docIdA, 3, [2]⟩], []⟩

/-- A store holding cex1Doc and three of its changes, no snapshots. -/
def wit2Store : Store :=
  ⟨[], [cex1Doc],
   [⟨docIdA, 1, actorIdC, 1, 1, "", []⟩,
    ⟨docIdA, 2, actorIdC, 2, 2, "", []⟩,
    ⟨docIdA, 3, actorIdC, 3, 3, "", []⟩],
   [], []⟩

/-- The document of wit2Store at serverSeq 3. -/
def wit2Doc : DocInfo := ⟨docIdA, ⟨"c", "d"⟩, clientIdB, 3⟩

/-- A request pack whose checkpoint is (1, 0). -/
def wit2Pack : ChangePack := ⟨⟨"c", "d"⟩, ⟨1, 0⟩, [], none⟩

/-- A client attached to docIdA at (serverSeq 4, clientSeq 2). -/
def wit3Client : ClientInfo :=
  ⟨clientIdB, "client-b", .activated, [(docIdA, ⟨4, 2, .attached⟩)], 0⟩

/-- A store with two synced seqs for docIdA, and a change at serverSeq 4. -/
def wit3Store : Store :=
  ⟨[⟨wit3Client, .ok⟩], [wit2Doc],
   [⟨docIdA, 4, actorIdC, 4, 7, "", []⟩],
   [],
   [⟨docIdA, clientIdD, 9⟩, ⟨docIdA, clientIdB, 2⟩]⟩

/-- A client detached from docIdA. -/
def wit6Client : ClientInfo :=
  ⟨clientIdB, "client-b", .activated, [(docIdA, ⟨4, 2, .detached⟩)], 3⟩

/-- A store whose client row is wit6Client and which holds its synced seq. -/
def wit6Store : Store :=
  ⟨[⟨wit6Client, .ok⟩], [wit2Doc], [], [], [⟨docIdA, clientIdB, 2⟩]⟩

/-- A document info carrying the post-push serverSeq 4. -/
def wit4Doc : DocInfo := ⟨docIdA, ⟨"c", "d"⟩, clientIdB, 4⟩

/-- A pushed change assigned serverSeq 4. -/
def wit4Change : Change := ⟨4, actorIdC, 4, 9, "m", []⟩

/-- A store whose document row is wit2Doc, still at server_seq 3. -/
def wit4Store : Store := ⟨[], [wit2Doc], [], [], []⟩

/-- A stored client row at (serverSeq 5, clientSeq 1) for docIdA. -/
def wit9StoredClient : ClientInfo :=
  ⟨clientIdB, "client-b", .activated, [(docIdA, ⟨5, 1, .attached⟩)], 0⟩

/-- The same client as loaded in memory, at (serverSeq 4, clientSeq 7). -/
def wit9Client : ClientInfo :=
  ⟨clientIdB, "client-b", .activated, [(docIdA, ⟨4, 7, .attached⟩)], 1⟩

/-- A store whose client row is wit9StoredClient. -/
def wit9Store : Store := ⟨[⟨wit9StoredClient, .ok⟩], [wit2Doc], [], [], []⟩

/-- The possibly-zero value left behind by a failing decode. -/
def wit10Leftover : ClientInfo := ⟨"", "", .deactivated, [], 0⟩

/-- A client row whose decode fails, leaving wit10Leftover. -/
def wit10Rec : ClientRecord :=
  ⟨⟨clientIdB, "client-key", .activated, [], 0⟩, .failed wit10Leftover⟩

/-- A store whose only client row is wit10Rec. -/
def wit10Store : Store := ⟨[wit10Rec], [], [], [], []⟩

/-! ## Helper lemmas -/

theorem encodeID_eq {id e : ID} (h : encodeID id = some e) : e = id := by
  unfold encodeID at h
  split at h
  · injection h with h
    exact h.symm
  · simp at h

theorem minRow_mem : ∀ (rest : List SyncedSeqInfo) (r : SyncedSeqInfo),
    minRow r rest ∈ r :: rest := by
  intro rest
  induction rest with
  | nil => intro r; simp [minRow]
  | cons x xs ih =>
    intro r
    simp only [minRow]
    split
    · exact List.mem_cons_of_mem r (ih x)
    · exact List.mem_cons_self r _

theorem minRow_le : ∀ (rest : List SyncedSeqInfo) (r : SyncedSeqInfo),
    ∀ x ∈ r :: rest, (minRow r rest).serverSeq ≤ x.serverSeq := by
  intro rest
  induction rest with
  | nil =>
    intro r x hx
    rcases List.mem_cons.mp hx with hx | hx
    · exact hx ▸ Nat.le_refl _
    · simp at hx
  | cons y ys ih =>
    intro r x hx
    simp only [minRow]
    split
    · rename_i hlt
      rcases List.mem_cons.mp hx with hx | hx
      · exact hx ▸ Nat.le_of_lt hlt
      · exact ih y x hx
    · rename_i hnlt
      rcases List.mem_cons.mp hx with hx | hx
      · exact hx ▸ Nat.le_refl _
      · exact Nat.le_trans (Nat.le_of_not_lt hnlt) (ih y x hx)

theorem lastRow_mem : ∀ (rest : List SnapshotInfo) (r : SnapshotInfo),
    lastRow r rest ∈ r :: rest := by
  intro rest
  induction rest with
  | nil => intro r; simp [lastRow]
  | cons x xs ih =>
    intro r
    simp only [lastRow]
    split
    · exact List.mem_cons_of_mem r (ih x)
    · exact List.mem_cons_self r _

theorem lastRow_ge : ∀ (rest : List SnapshotInfo) (r : SnapshotInfo),
    ∀ x ∈ r :: rest, x.serverSeq ≤ (lastRow r rest).serverSeq := by
  intro rest
  induction rest with
  | nil =>
    intro r x hx
    rcases List.mem_cons.mp hx with hx | hx
    · exact hx ▸ Nat.le_refl _
    · simp at hx
  | cons y ys ih =>
    intro r x hx
    simp only [lastRow]
    split
    · rename_i hlt
      rcases List.mem_cons.mp hx with hx | hx
      · exact hx ▸ Nat.le_of_lt hlt
      · exact ih y x hx
    · rename_i hnlt
      rcases List.mem_cons.mp hx with hx | hx
      · exact hx ▸ Nat.le_refl _
      · exact Nat.le_trans (ih y x hx) (Nat.le_of_not_lt hnlt)

theorem filter_and_eq {α : Type} (p q : α → Bool) :
    ∀ (l : List α), l.filter (fun a => p a && q a) = (l.filter p).filter q := by
  intro l
  induction l with
  | nil => rfl
  | cons x xs ih =>
    by_cases hp : p x <;> by_cases hq : q x <;>
      simp [List.filter_cons, hp, hq, ih]

theorem pairwise_filter_of_pairwise {α : Type} {R : α → α → Prop} (p : α → Bool) :
    ∀ {l : List α}, l.Pairwise R → (l.filter p).Pairwise R := by
  intro l
  induction l with
  | nil => intro h; simp
  | cons a l' ih =>
    intro h
    rw [List.pairwise_cons] at h
    by_cases hp : p a
    · rw [List.filter_cons_of_pos hp]
      exact List.Pairwise.cons (fun b hb => h.1 b (List.mem_of_mem_filter hb)) (ih h.2)
    · rw [List.filter_cons_of_neg (by simpa using hp)]
      exact ih h.2

theorem FindChangeInfosBetweenServerSeqs_error {s : Store} {docID : ID} {a b : Nat} {e : Err}
    (h : FindChangeInfosBetweenServerSeqs s docID a b = .error e) : e = .encodeError := by
  unfold FindChangeInfosBetweenServerSeqs at h
  cases henc : encodeID docID <;> rw [henc] at h
  · injection h with h
    exact h.symm
  · simp at h

theorem FindLastSnapshotInfo_error {s : Store} {docID : ID} {e : Err}
    (h : FindLastSnapshotInfo s docID = .error e) : e = .encodeError := by
  unfold FindLastSnapshotInfo at h
  cases henc : encodeID docID <;> rw [henc] at h
  · injection h with h
    exact h.symm
  · cases hl : lastSnapshotRow s.snapshots docID <;> rw [hl] at h <;> simp at h

theorem pullChangeInfos_error {s : Store} {docInfo : DocInfo} {requestPack : ChangePack}
    {pushedCP : Checkpoint} {initialServerSeq : Nat} {e : Err}
    (h : pullChangeInfos s docInfo requestPack pushedCP initialServerSeq = .error e) :
    e = .encodeError := by
  unfold pullChangeInfos at h
  split at h
  · rename_i heq
    injection h with h
    exact h ▸ FindChangeInfosBetweenServerSeqs_error heq
  · simp at h

theorem pullSnapshot_error {s : Store} {docInfo : DocInfo} {pushedCP : Checkpoint}
    {initialServerSeq : Nat} {e : Err}
    (h : pullSnapshot s docInfo pushedCP initialServerSeq = .error e) :
    e = .encodeError := by
  unfold pullSnapshot at h
  split at h
  · rename_i heq
    injection h with h
    exact h ▸ FindLastSnapshotInfo_error heq
  · split at h
    · simp at h
    · split at h
      · rename_i heq
        injection h with h
        exact h ▸ FindChangeInfosBetweenServerSeqs_error heq
      · simp at h

theorem find?_pred {α : Type} (p : α → Bool) {l : List α} {a : α}
    (h : l.find? p = some a) : p a = true :=
  List.find?_some h

theorem find?_cons_pos {α : Type} (p : α → Bool) (a : α) (l : List α) (h : p a = true) :
    (a :: l).find? p = some a :=
  List.find?_cons_of_pos l h

theorem find?_cons_neg {α : Type} (p : α → Bool) (a : α) (l : List α) (h : p a = false) :
    (a :: l).find? p = l.find? p :=
  List.find?_cons_of_neg l (by simp [h])

theorem lookup_setEntry (docs : List (ID × ClientDocInfo)) (docId : ID) (e : ClientDocInfo) :
    (setEntry docs docId e).lookup docId = some e := by
  induction docs with
  | nil => simp [setEntry, List.lookup]
  | cons kv rest ih =>
    obtain ⟨k, v⟩ := kv
    by_cases h : k = docId
    · subst h
      simp [setEntry, List.lookup]
    · have hb : (k == docId) = false := by simp [h]
      have hb2 : (docId == k) = false := by simp [Ne.symm h]
      simp [setEntry, hb, hb2, List.lookup, ih]

theorem find?_updateFirstClient (k : String) (f : ClientRecord → ClientRecord) :
    ∀ (rs : List ClientRecord) (r : ClientRecord),
      rs.find? (fun x => x.info.key == k) = some r →
      (f r).info.key = r.info.key →
      (updateFirstClient rs k f).find? (fun x => x.info.key == k) = some (f r) := by
  intro rs
  induction rs with
  | nil => intro r hr _; simp at hr
  | cons x rest ih =>
    intro r hr hf
    by_cases hx : (x.info.key == k) = true
    · rw [find?_cons_pos (fun x => x.info.key == k) x rest hx] at hr
      injection hr with hr
      subst hr
      simp only [updateFirstClient, if_pos hx]
      exact find?_cons_pos (fun x => x.info.key == k) (f x) rest
        (by simp only [hf]; exact hx)
    · have hx' : (x.info.key == k) = false := by simpa using hx
      rw [find?_cons_neg (fun x => x.info.key == k) x rest hx'] at hr
      simp only [updateFirstClient, if_neg hx]
      rw [find?_cons_neg (fun x => x.info.key == k) x _ hx']
      exact ih r hr hf

theorem find?_upsertSyncedSeq (docId clientId : ID) (seq : Nat) :
    ∀ (rows : List SyncedSeqInfo),
      (upsertSyncedSeq rows docId clientId seq).find?
        (fun r => r.docId == docId && r.clientId == clientId) =
        some ⟨docId, clientId, seq⟩ := by
  intro rows
  induction rows with
  | nil =>
    simp only [upsertSyncedSeq]
    exact find?_cons_pos _ _ _ (by simp)
  | cons r rest ih =>
    by_cases h : (r.docId == docId && r.clientId == clientId) = true
    · have h1 : r.docId = docId := beq_iff_eq.mp ((Bool.and_eq_true _ _).mp h).1
      have h2 : r.clientId = clientId := beq_iff_eq.mp ((Bool.and_eq_true _ _).mp h).2
      simp only [upsertSyncedSeq, if_pos h]
      rw [h1, h2]
      exact find?_cons_pos _ _ _ (by simp)
    · have h' : (r.docId == docId && r.clientId == clientId) = false := by simpa using h
      simp only [upsertSyncedSeq, if_neg h]
      rw [find?_cons_neg (fun r => r.docId == docId && r.clientId == clientId) r _ h']
      exact ih

theorem find?_deleteFirstSyncedSeq (docId clientId : ID) :
    ∀ (rows : List SyncedSeqInfo),
      rows.Pairwise (fun a b => a.docId = b.docId → a.clientId = b.clientId → False) →
      (deleteFirstSyncedSeq rows docId clientId).find?
        (fun r => r.docId == docId && r.clientId == clientId) = none := by
  intro rows
  induction rows with
  | nil => intro _; simp [deleteFirstSyncedSeq]
  | cons r rest ih =>
    intro huniq
    rw [List.pairwise_cons] at huniq
    by_cases h : (r.docId == docId && r.clientId == clientId) = true
    · have h1 : r.docId = docId := beq_iff_eq.mp ((Bool.and_eq_true _ _).mp h).1
      have h2 : r.clientId = clientId := beq_iff_eq.mp ((Bool.and_eq_true _ _).mp h).2
      simp only [deleteFirstSyncedSeq, if_pos h]
      rw [List.find?_eq_none]
      intro x hx hpx
      have hx1 : x.docId = docId := beq_iff_eq.mp ((Bool.and_eq_true _ _).mp hpx).1
      have hx2 : x.clientId = clientId := beq_iff_eq.mp ((Bool.and_eq_true _ _).mp hpx).2
      exact huniq.1 x hx (h1.trans hx1.symm) (h2.trans hx2.symm)
    · have h' : (r.docId == docId && r.clientId == clientId) = false := by simpa using h
      simp only [deleteFirstSyncedSeq, if_neg h]
      rw [find?_cons_neg (fun r => r.docId == docId && r.clientId == clientId) r _ h']
      exact ih huniq.2

theorem findChange_upsertChange_self (docId : ID) (cn : Change) :
    ∀ (cs : List ChangeInfo),
      findChange (upsertChange cs docId cn) docId cn.serverSeq =
        some (changeRecord docId cn) := by
  intro cs
  induction cs with
  | nil =>
    simp only [upsertChange, findChange]
    exact find?_cons_pos _ _ _ (by simp [changeRecord])
  | cons c rest ih =>
    by_cases h : (c.docId == docId && c.serverSeq == cn.serverSeq) = true
    · simp only [upsertChange, if_pos h, findChange]
      exact find?_cons_pos _ _ _ (by simp [changeRecord])
    · have h' : (c.docId == docId && c.serverSeq == cn.serverSeq) = false := by
        simpa using h
      simp only [upsertChange, if_neg h, findChange] at ih ⊢
      rw [find?_cons_neg (fun x => x.docId == docId && x.serverSeq == cn.serverSeq) c _ h']
      exact ih

theorem findChange_upsertChange_other (docId : ID) (cn : Change) (seq : Nat)
    (hne : seq ≠ cn.serverSeq) :
    ∀ (cs : List ChangeInfo),
      findChange (upsertChange cs docId cn) docId seq = findChange cs docId seq := by
  have hseqf : (cn.serverSeq == seq) = false := by
    simp [Ne.symm hne]
  have hrec : ((changeRecord docId cn).docId == docId &&
      (changeRecord docId cn).serverSeq == seq) = false := by
    simp only [changeRecord]
    simp [hseqf]
  intro cs
  induction cs with
  | nil =>
    simp only [upsertChange, findChange]
    rw [find?_cons_neg (fun x => x.docId == docId && x.serverSeq == seq)
      (changeRecord docId cn) _ hrec]
  | cons c rest ih =>
    by_cases h : (c.docId == docId && c.serverSeq == cn.serverSeq) = true
    · have hcseq : c.serverSeq = cn.serverSeq :=
        beq_iff_eq.mp ((Bool.and_eq_true _ _).mp h).2
      have hc : (c.docId == docId && c.serverSeq == seq) = false := by
        rw [hcseq, hseqf, Bool.and_false]
      simp only [upsertChange, if_pos h, findChange]
      rw [find?_cons_neg (fun x => x.docId == docId && x.serverSeq == seq)
          (changeRecord docId cn) _ hrec,
        find?_cons_neg (fun x => x.docId == docId && x.serverSeq == seq) c _ hc]
    · simp only [upsertChange, if_neg h, findChange] at ih ⊢
      by_cases hc : (c.docId == docId && c.serverSeq == seq) = true
      · rw [find?_cons_pos (fun x => x.docId == docId && x.serverSeq == seq) c _ hc,
          find?_cons_pos (fun x => x.docId == docId && x.serverSeq == seq) c _ hc]
      · have hc' : (c.docId == docId && c.serverSeq == seq) = false := by simpa using hc
        rw [find?_cons_neg (fun x => x.docId == docId && x.serverSeq == seq) c _ hc',
          find?_cons_neg (fun x => x.docId == docId && x.serverSeq == seq) c _ hc']
        exact ih

theorem findChange_foldl_preserved (docId : ID) (seq : Nat) :
    ∀ (changes : List Change) (cs : List ChangeInfo),
      (∀ c ∈ changes, c.serverSeq ≠ seq) →
      findChange (changes.foldl (fun acc cn => upsertChange acc docId cn) cs) docId seq =
        findChange cs docId seq := by
  intro changes
  induction changes with
  | nil => intro cs _; rfl
  | cons c rest ih =>
    intro cs h
    rw [List.foldl_cons]
    rw [ih _ (fun x hx => h x (List.mem_cons_of_mem c hx))]
    exact findChange_upsertChange_other docId c seq
      (fun he => h c (List.mem_cons_self c rest) he.symm) cs

theorem findChange_foldl_upsert (docId : ID) :
    ∀ (changes : List Change) (cs : List ChangeInfo),
      changes.Pairwise (fun a b => a.serverSeq ≠ b.serverSeq) →
      ∀ cn ∈ changes,
        findChange (changes.foldl (fun acc c => upsertChange acc docId c) cs) docId
          cn.serverSeq = some (changeRecord docId cn) := by
  intro changes
  induction changes with
  | nil => intro cs _ cn hcn; simp at hcn
  | cons c rest ih =>
    intro cs hp cn hcn
    rw [List.pairwise_cons] at hp
    rw [List.foldl_cons]
    rcases List.mem_cons.mp hcn with hcn | hcn
    · subst hcn
      rw [findChange_foldl_preserved docId cn.serverSeq rest _
        (fun x hx => Ne.symm (hp.1 x hx))]
      exact findChange_upsertChange_self docId cn _
    · exact ih _ hp.2 cn hcn

theorem casDoc_matched (docId : ID) (ini newSeq : Nat) :
    ∀ (docs : List DocInfo),
      (casDoc docs docId ini newSeq).2 = true ↔
        ∃ x ∈ docs, x.id = docId ∧ x.serverSeq = ini := by
  intro docs
  induction docs with
  | nil => simp [casDoc]
  | cons d rest ih =>
    by_cases h : (d.id == docId && d.serverSeq == ini) = true
    · have h1 : d.id = docId := beq_iff_eq.mp ((Bool.and_eq_true _ _).mp h).1
      have h2 : d.serverSeq = ini := beq_iff_eq.mp ((Bool.and_eq_true _ _).mp h).2
      simp only [casDoc, if_pos h]
      exact iff_of_true trivial ⟨d, List.mem_cons_self d rest, h1, h2⟩
    · simp only [casDoc, if_neg h]
      rw [ih]
      constructor
      · rintro ⟨x, hx, hx1, hx2⟩
        exact ⟨x, List.mem_cons_of_mem d hx, hx1, hx2⟩
      · rintro ⟨x, hx, hx1, hx2⟩
        rcases List.mem_cons.mp hx with hx | hx
        · subst hx
          exact absurd (by simp [hx1, hx2]) h
        · exact ⟨x, hx, hx1, hx2⟩

theorem casDoc_find (docId : ID) (ini newSeq : Nat) :
    ∀ (docs : List DocInfo) (d : DocInfo),
      docs.find? (fun x => x.id == docId) = some d →
      d.serverSeq = ini →
      (∀ x ∈ docs, x.id = docId → x = d) →
      (casDoc docs docId ini newSeq).2 = true ∧
      (casDoc docs docId ini newSeq).1.find? (fun x => x.id == docId) =
        some { d with serverSeq := newSeq } := by
  intro docs
  induction docs with
  | nil => intro d hd _ _; simp at hd
  | cons x rest ih =>
    intro d hd hseq huniq
    by_cases hx : (x.id == docId) = true
    · rw [find?_cons_pos (fun x => x.id == docId) x rest hx] at hd
      injection hd with hd
      subst hd
      have hcond : (x.id == docId && x.serverSeq == ini) = true := by
        simp [beq_iff_eq.mp hx, hseq]
      simp only [casDoc, if_pos hcond]
      exact ⟨trivial, find?_cons_pos (fun y => y.id == docId)
        { x with serverSeq := newSeq } rest hx⟩
    · have hx' : (x.id == docId) = false := by simpa using hx
      rw [find?_cons_neg (fun x => x.id == docId) x rest hx'] at hd
      have hcond : ¬ ((x.id == docId && x.serverSeq == ini) = true) := by
        simp only [Bool.and_eq_true]
        intro hc
        exact hx hc.1
      simp only [casDoc, if_neg hcond]
      have hih := ih d hd hseq (fun y hy hyid => huniq y (List.mem_cons_of_mem x hy) hyid)
      refine ⟨hih.1, ?_⟩
      rw [find?_cons_neg (fun y => y.id == docId) x _ hx']
      exact hih.2

theorem minSyncedSeqRow_eq_none_iff (rows : List SyncedSeqInfo) (docId : ID) :
    minSyncedSeqRow rows docId = none ↔
      rows.filter (fun r => r.docId == docId) = [] := by
  unfold minSyncedSeqRow
  cases hf : rows.filter (fun r => r.docId == docId) with
  | nil => simp
  | cons r rest => simp

theorem minSyncedSeqRow_spec (rows : List SyncedSeqInfo) (docId : ID)
    (row : SyncedSeqInfo) (h : minSyncedSeqRow rows docId = some row) :
    row ∈ rows.filter (fun r => r.docId == docId) ∧
    ∀ x ∈ rows.filter (fun r => r.docId == docId), row.serverSeq ≤ x.serverSeq := by
  unfold minSyncedSeqRow at h
  revert h
  cases hf : rows.filter (fun r => r.docId == docId) with
  | nil => intro h; simp at h
  | cons r rest =>
    intro h
    injection h with h
    subst h
    exact ⟨minRow_mem rest r, minRow_le rest r⟩

theorem lastSnapshotRow_eq_none_iff (rows : List SnapshotInfo) (docId : ID) :
    lastSnapshotRow rows docId = none ↔
      rows.filter (fun r => r.docId == docId) = [] := by
  unfold lastSnapshotRow
  cases hf : rows.filter (fun r => r.docId == docId) with
  | nil => simp
  | cons r rest => simp

theorem lastSnapshotRow_spec (rows : List SnapshotInfo) (docId : ID)
    (row : SnapshotInfo) (h : lastSnapshotRow rows docId = some row) :
    row ∈ rows.filter (fun r => r.docId == docId) ∧
    ∀ x ∈ rows.filter (fun r => r.docId == docId), x.serverSeq ≤ row.serverSeq := by
  unfold lastSnapshotRow at h
  revert h
  cases hf : rows.filter (fun r => r.docId == docId) with
  | nil => intro h; simp at h
  | cons r rest =>
    intro h
    injection h with h
    subst h
    exact ⟨lastRow_mem rest r, lastRow_ge rest r⟩

theorem minTicket_spec (s1 : Store) (docID : ID)
    (hed : encodeID docID = some docID)
    (t : Except Err Ticket)
    (ht : t = match minSyncedSeqRow s1.syncedSeqs docID with
      | none => .ok initialTicket
      | some row =>
        if row.serverSeq = 0 then .ok initialTicket
        else findTicketByServerSeq s1 docID row.serverSeq) :
    (s1.syncedSeqs.filter (fun r => r.docId == docID) = [] → t = .ok initialTicket) ∧
    (∀ row ∈ s1.syncedSeqs.filter (fun r => r.docId == docID),
      (∀ x ∈ s1.syncedSeqs.filter (fun r => r.docId == docID),
        row.serverSeq ≤ x.serverSeq) →
      (row.serverSeq = 0 → t = .ok initialTicket) ∧
      (row.serverSeq ≠ 0 → ∀ ch, findChange s1.changes docID row.serverSeq = some ch →
        (encodeID ch.actor).isSome →
        t = .ok ⟨ch.lamport, maxDelimiter, ch.actor⟩)) := by
  constructor
  · intro hfil
    have hm : minSyncedSeqRow s1.syncedSeqs docID = none :=
      (minSyncedSeqRow_eq_none_iff _ _).mpr hfil
    simp only [ht, hm]
  · intro row hrow hmin
    cases hm : minSyncedSeqRow s1.syncedSeqs docID with
    | none =>
      exfalso
      rw [(minSyncedSeqRow_eq_none_iff _ _).mp hm] at hrow
      simp at hrow
    | some row' =>
      obtain ⟨hmem', hmin'⟩ := minSyncedSeqRow_spec _ _ _ hm
      have hseq : row'.serverSeq = row.serverSeq :=
        Nat.le_antisymm (hmin' row hrow) (hmin row' hmem')
      constructor
      · intro hz
        simp only [ht, hm]
        rw [if_pos (hseq.trans hz)]
      · intro hnz ch hch hact
        obtain ⟨ea, hea⟩ := Option.isSome_iff_exists.mp hact
        have hea2 := encodeID_eq hea
        subst hea2
        simp only [ht, hm]
        rw [if_neg (by rw [hseq]; exact hnz)]
        simp only [findTicketByServerSeq, hed, hseq, hch, hea]

/-! ## Claim theorems -/

/-- C5: pullPack fails with InvalidServerSeq if and only if
initialServerSeq is less than the request pack checkpoint's serverSeq (and as
an Except error it then produces no response pack). -/
theorem pullPack_invalidServerSeq_iff (conf : Config) (s : Store) (docInfo : DocInfo)
    (requestPack : ChangePack) (pushedCP : Checkpoint) (initialServerSeq : Nat) :
    pullPack conf s docInfo requestPack pushedCP initialServerSeq =
      .error .invalidServerSeq ↔
      initialServerSeq < requestPack.checkpoint.serverSeq := by
  unfold pullPack
  by_cases h1 : initialServerSeq < requestPack.checkpoint.serverSeq
  · simp [h1]
  · rw [if_neg h1]
    refine iff_of_false ?_ h1
    intro h
    split at h
    · cases hp : pullChangeInfos s docInfo requestPack pushedCP initialServerSeq <;>
        rw [hp] at h
      · injection h with h
        exact absurd (h ▸ pullChangeInfos_error hp) (by simp)
      · simp at h
    · cases hp : pullSnapshot s docInfo pushedCP initialServerSeq <;> rw [hp] at h
      · injection h with h
        exact absurd (h ▸ pullSnapshot_error hp) (by simp)
      · simp at h

/-- C10: FindClientInfoByID returns an error only when the id cannot be
encoded or no client row with that id exists (ClientNotFound); a decode
failure of an existing row is swallowed — the partially-decoded, possibly
zero-value ClientInfo is returned together with a nil error. -/
theorem findClientInfoByID_error_policy (s : Store) (clientID : ID) :
    (encodeID clientID = none →
      FindClientInfoByID s clientID = .error .encodeError) ∧
    ((encodeID clientID).isSome →
      (s.clients.find? (fun r => r.info.id == clientID) = none →
        FindClientInfoByID s clientID = .error .clientNotFound) ∧
      (∀ r leftover, s.clients.find? (fun r => r.info.id == clientID) = some r →
        r.decode = .failed leftover →
        FindClientInfoByID s clientID = .ok leftover) ∧
      (∀ r, s.clients.find? (fun r => r.info.id == clientID) = some r →
        r.decode = .ok → FindClientInfoByID s clientID = .ok r.info)) ∧
    (∀ e, FindClientInfoByID s clientID = .error e →
      encodeID clientID = none ∨
        s.clients.find? (fun r => r.info.id == clientID) = none) := by
  cases henc : encodeID clientID with
  | none =>
    refine ⟨fun _ => by simp only [FindClientInfoByID, henc], fun hs => ?_,
      fun e _ => Or.inl rfl⟩
    simp at hs
  | some enc =>
    have he := encodeID_eq henc
    subst he
    refine ⟨fun h => Option.noConfusion h, fun _ => ⟨?_, ?_, ?_⟩, ?_⟩
    · intro hf
      simp only [FindClientInfoByID, henc, hf]
    · intro r leftover hf hd
      simp only [FindClientInfoByID, henc, hf, hd]
    · intro r hf hd
      simp only [FindClientInfoByID, henc, hf, hd]
    · intro e hfe
      cases hf : s.clients.find? (fun r => r.info.id == enc) with
      | none => exact Or.inr rfl
      | some r =>
        exfalso
        simp only [FindClientInfoByID, henc, hf] at hfe
        cases hd : r.decode <;> simp only [hd] at hfe <;> simp at hfe

/-- C10 witness: on a store whose single client row decodes with a failure,
FindClientInfoByID returns the partially-decoded value with a nil error. -/
theorem findClientInfoByID_error_policy_witness :
    FindClientInfoByID wit10Store clientIdB = .ok wit10Leftover := by
  exact ((findClientInfoByID_error_policy wit10Store clientIdB).2.1 (by decide)).2.1
    wit10Rec wit10Leftover (by decide) (by decide)

/-- C9: for a client attached to a document, UpdateClientInfoAfterPushPull
merges with the $max operator: the stored per-document server_seq and
client_seq become the maximum of the stored and given values, so a call
carrying a smaller value never lowers the stored one. -/
theorem updateClientInfoAfterPushPull_monotone
    (s : Store) (clientInfo : ClientInfo) (docInfo : DocInfo)
    (hatt : clientInfo.isAttached docInfo.id = .ok true)
    (r : ClientRecord)
    (hr : s.clients.find? (fun x => x.info.key == clientInfo.key) = some r)
    (old : ClientDocInfo) (hold : r.info.documents.lookup docInfo.id = some old)
    (cdi : ClientDocInfo) (hcdi : clientInfo.documents.lookup docInfo.id = some cdi) :
    (UpdateClientInfoAfterPushPull s clientInfo docInfo).2 = none ∧
    ∃ r', (UpdateClientInfoAfterPushPull s clientInfo docInfo).1.clients.find?
        (fun x => x.info.key == clientInfo.key) = some r' ∧
      r'.info.documents.lookup docInfo.id =
        some ⟨max old.serverSeq cdi.serverSeq, max old.clientSeq cdi.clientSeq, cdi.status⟩ ∧
      old.serverSeq ≤ max old.serverSeq cdi.serverSeq ∧
      old.clientSeq ≤ max old.clientSeq cdi.clientSeq := by
  simp only [UpdateClientInfoAfterPushPull, hatt, hr, hcdi, Option.getD_some]
  refine ⟨trivial, _, find?_updateFirstClient clientInfo.key _ s.clients r hr rfl, ?_,
    Nat.le_max_left _ _, Nat.le_max_left _ _⟩
  show (setEntry r.info.documents docInfo.id
      (pushPullEntry true (r.info.documents.lookup docInfo.id) cdi)).lookup docInfo.id = _
  rw [hold]
  exact lookup_setEntry _ _ _

/-- C9 witness: a stored (5, 1) entry merged with a pushed (4, 7) entry becomes
(5, 7) — neither component is lowered. -/
theorem updateClientInfoAfterPushPull_monotone_witness :
    (UpdateClientInfoAfterPushPull wit9Store wit9Client wit2Doc).2 = none ∧
    ∃ r', (UpdateClientInfoAfterPushPull wit9Store wit9Client wit2Doc).1.clients.find?
        (fun x => x.info.key == wit9Client.key) = some r' ∧
      r'.info.documents.lookup wit2Doc.id = some ⟨5, 7, AttachStatus.attached⟩ ∧
      (5 : Nat) ≤ 5 ∧ (1 : Nat) ≤ 7 :=
  updateClientInfoAfterPushPull_monotone wit9Store wit9Client wit2Doc (by decide)
    ⟨wit9StoredClient, .ok⟩ (by decide) ⟨5, 1, .attached⟩ (by decide)
    ⟨4, 7, .attached⟩ (by decide)

/-- C6: after a PushPull of a detached client, UpdateClientInfoAfterPushPull
sets the stored per-document (server_seq, client_seq) to (0, 0) with the
Detached status, and UpdateAndFindMinSyncedTicket deletes the client's
SyncedSeq row for the document. -/
theorem detached_client_state_reset
    (s : Store) (clientInfo : ClientInfo) (docInfo : DocInfo) (serverSeq : Nat)
    (hatt : clientInfo.isAttached docInfo.id = .ok false)
    (r : ClientRecord)
    (hr : s.clients.find? (fun x => x.info.key == clientInfo.key) = some r)
    (cdi : ClientDocInfo) (hcdi : clientInfo.documents.lookup docInfo.id = some cdi)
    (hdoc : (encodeID docInfo.id).isSome) (hcli : (encodeID clientInfo.id).isSome)
    (huniq : s.syncedSeqs.Pairwise
      (fun a b => a.docId = b.docId → a.clientId = b.clientId → False)) :
    (UpdateClientInfoAfterPushPull s clientInfo docInfo).2 = none ∧
    (∃ r', (UpdateClientInfoAfterPushPull s clientInfo docInfo).1.clients.find?
        (fun x => x.info.key == clientInfo.key) = some r' ∧
      r'.info.documents.lookup docInfo.id = some ⟨0, 0, AttachStatus.detached⟩) ∧
    (UpdateAndFindMinSyncedTicket s clientInfo docInfo.id serverSeq).1.syncedSeqs.find?
      (fun x => x.docId == docInfo.id && x.clientId == clientInfo.id) = none := by
  have hst : cdi.status = .detached := by
    simp only [ClientInfo.isAttached, hcdi] at hatt
    injection hatt with hatt
    cases hc : cdi.status
    · rw [hc] at hatt
      simp at hatt
    · rfl
  obtain ⟨ed, hed⟩ := Option.isSome_iff_exists.mp hdoc
  obtain ⟨ec, hec⟩ := Option.isSome_iff_exists.mp hcli
  refine ⟨?_, ?_, ?_⟩
  · simp only [UpdateClientInfoAfterPushPull, hatt, hr]
  · simp only [UpdateClientInfoAfterPushPull, hatt, hr, hcdi, Option.getD_some]
    refine ⟨_, find?_updateFirstClient clientInfo.key _ s.clients r hr rfl, ?_⟩
    show (setEntry r.info.documents docInfo.id
        (pushPullEntry false (r.info.documents.lookup docInfo.id) cdi)).lookup
        docInfo.id = _
    have hent : pushPullEntry false (r.info.documents.lookup docInfo.id) cdi =
        ⟨0, 0, AttachStatus.detached⟩ := by
      simp [pushPullEntry, hst]
    rw [hent]
    exact lookup_setEntry _ _ _
  · have hcall : (UpdateAndFindMinSyncedTicket s clientInfo docInfo.id serverSeq).1 =
        { s with syncedSeqs := deleteFirstSyncedSeq s.syncedSeqs docInfo.id clientInfo.id } := by
      simp only [UpdateAndFindMinSyncedTicket, hed, hec, hatt]
      rw [if_neg Bool.false_ne_true]
    rw [hcall]
    exact find?_deleteFirstSyncedSeq docInfo.id clientInfo.id s.syncedSeqs huniq

/-- C6 witness: a client detached from docIdA has its stored entry reset to
(0, 0) and its SyncedSeq row removed. -/
theorem detached_client_state_reset_witness :
    (UpdateClientInfoAfterPushPull wit6Store wit6Client wit2Doc).2 = none ∧
    (∃ r', (UpdateClientInfoAfterPushPull wit6Store wit6Client wit2Doc).1.clients.find?
        (fun x => x.info.key == wit6Client.key) = some r' ∧
      r'.info.documents.lookup wit2Doc.id = some ⟨0, 0, AttachStatus.detached⟩) ∧
    (UpdateAndFindMinSyncedTicket wit6Store wit6Client wit2Doc.id 9).1.syncedSeqs.find?
      (fun x => x.docId == wit2Doc.id && x.clientId == wit6Client.id) = none :=
  detached_client_state_reset wit6Store wit6Client wit2Doc 9 (by decide)
    ⟨wit6Client, .ok⟩ (by decide) ⟨4, 2, .detached⟩ (by decide) (by decide) (by decide)
    (by simp [wit6Store])

/-- C3: UpdateAndFindMinSyncedTicket upserts the attached client's SyncedSeq
row to the given serverSeq (or deletes the row when detached), then takes the
minimum server_seq across the document's SyncedSeq rows: no row or minimum 0
yields InitialTicket, and otherwise the Ticket (lamport of the change at that
seq, MaxDelimiter, the change's actor) of the persisted change with that
document id and serverSeq equal to the minimum. -/
theorem updateAndFindMinSyncedTicket_spec
    (s : Store) (clientInfo : ClientInfo) (docID : ID) (serverSeq : Nat)
    (hdoc : (encodeID docID).isSome) (hcli : (encodeID clientInfo.id).isSome)
    (attached : Bool) (hatt : clientInfo.isAttached docID = .ok attached)
    (huniq : s.syncedSeqs.Pairwise
      (fun a b => a.docId = b.docId → a.clientId = b.clientId → False)) :
    ((UpdateAndFindMinSyncedTicket s clientInfo docID serverSeq).1.syncedSeqs.find?
        (fun x => x.docId == docID && x.clientId == clientInfo.id) =
      if attached then some ⟨docID, clientInfo.id, serverSeq⟩ else none) ∧
    (UpdateAndFindMinSyncedTicket s clientInfo docID serverSeq).1.changes = s.changes ∧
    ((UpdateAndFindMinSyncedTicket s clientInfo docID serverSeq).1.syncedSeqs.filter
        (fun r => r.docId == docID) = [] →
      (UpdateAndFindMinSyncedTicket s clientInfo docID serverSeq).2 = .ok initialTicket) ∧
    (∀ row ∈ (UpdateAndFindMinSyncedTicket s clientInfo docID serverSeq).1.syncedSeqs.filter
        (fun r => r.docId == docID),
      (∀ x ∈ (UpdateAndFindMinSyncedTicket s clientInfo docID serverSeq).1.syncedSeqs.filter
          (fun r => r.docId == docID), row.serverSeq ≤ x.serverSeq) →
      (row.serverSeq = 0 →
        (UpdateAndFindMinSyncedTicket s clientInfo docID serverSeq).2 = .ok initialTicket) ∧
      (row.serverSeq ≠ 0 → ∀ ch, findChange s.changes docID row.serverSeq = some ch →
        (encodeID ch.actor).isSome →
        (UpdateAndFindMinSyncedTicket s clientInfo docID serverSeq).2 =
          .ok ⟨ch.lamport, maxDelimiter, ch.actor⟩)) := by
  obtain ⟨ed, hed0⟩ := Option.isSome_iff_exists.mp hdoc
  have hed : encodeID docID = some docID := by
    rw [hed0, encodeID_eq hed0]
  obtain ⟨ec, hec0⟩ := Option.isSome_iff_exists.mp hcli
  have hec : encodeID clientInfo.id = some clientInfo.id := by
    rw [hec0, encodeID_eq hec0]
  cases attached with
  | true =>
    have h1 : (UpdateAndFindMinSyncedTicket s clientInfo docID serverSeq).1 =
        { s with syncedSeqs := upsertSyncedSeq s.syncedSeqs docID clientInfo.id serverSeq } := by
      simp only [UpdateAndFindMinSyncedTicket, hed, hec, hatt]
      rw [if_pos trivial]
    have h2 : (UpdateAndFindMinSyncedTicket s clientInfo docID serverSeq).2 =
        match minSyncedSeqRow (upsertSyncedSeq s.syncedSeqs docID clientInfo.id serverSeq)
            docID with
        | none => .ok initialTicket
        | some row =>
          if row.serverSeq = 0 then .ok initialTicket
          else findTicketByServerSeq
            { s with syncedSeqs := upsertSyncedSeq s.syncedSeqs docID clientInfo.id serverSeq }
            docID row.serverSeq := by
      simp only [UpdateAndFindMinSyncedTicket, hed, hec, hatt]
      rw [if_pos trivial]
    have hmt := minTicket_spec
      { s with syncedSeqs := upsertSyncedSeq s.syncedSeqs docID clientInfo.id serverSeq }
      docID hed _ h2
    rw [h1]
    exact ⟨find?_upsertSyncedSeq docID clientInfo.id serverSeq s.syncedSeqs, rfl,
      hmt.1, hmt.2⟩
  | false =>
    have h1 : (UpdateAndFindMinSyncedTicket s clientInfo docID serverSeq).1 =
        { s with syncedSeqs := deleteFirstSyncedSeq s.syncedSeqs docID clientInfo.id } := by
      simp only [UpdateAndFindMinSyncedTicket, hed, hec, hatt]
      rw [if_neg Bool.false_ne_true]
    have h2 : (UpdateAndFindMinSyncedTicket s clientInfo docID serverSeq).2 =
        match minSyncedSeqRow (deleteFirstSyncedSeq s.syncedSeqs docID clientInfo.id)
            docID with
        | none => .ok initialTicket
        | some row =>
          if row.serverSeq = 0 then .ok initialTicket
          else findTicketByServerSeq
            { s with syncedSeqs := deleteFirstSyncedSeq s.syncedSeqs docID clientInfo.id }
            docID row.serverSeq := by
      simp only [UpdateAndFindMinSyncedTicket, hed, hec, hatt]
      rw [if_neg Bool.false_ne_true]
    have hmt := minTicket_spec
      { s with syncedSeqs := deleteFirstSyncedSeq s.syncedSeqs docID clientInfo.id }
      docID hed _ h2
    rw [h1]
    exact ⟨find?_deleteFirstSyncedSeq docID clientInfo.id s.syncedSeqs huniq, rfl,
      hmt.1, hmt.2⟩

/-- C3 witness: with two synced seqs (9 and, after the upsert, 4) the minimum
is 4 and the ticket of the change at serverSeq 4 (lamport 7) is returned. -/
theorem updateAndFindMinSyncedTicket_spec_witness :
    (UpdateAndFindMinSyncedTicket wit3Store wit3Client docIdA 4).1.syncedSeqs.find?
        (fun x => x.docId == docIdA && x.clientId == wit3Client.id) =
      some ⟨docIdA, wit3Client.id, 4⟩ ∧
    (UpdateAndFindMinSyncedTicket wit3Store wit3Client docIdA 4).2 =
      .ok ⟨7, maxDelimiter, actorIdC⟩ := by
  have h := updateAndFindMinSyncedTicket_spec wit3Store wit3Client docIdA 4 (by decide)
    (by decide) true (by decide) (by decide)
  refine ⟨h.1, ?_⟩
  exact (h.2.2.2 ⟨docIdA, clientIdB, 4⟩ (by decide) (by decide)).2 (by decide)
    ⟨docIdA, 4, actorIdC, 4, 7, "", []⟩ (by decide) (by decide)

/-- C4: StoreChangeInfos fails with ConflictOnUpdate exactly when the
compare-and-set misses, i.e. the stored document row's server_seq no longer
equals the given initialServerSeq when the update runs; on success the stored
server_seq is advanced to docInfo.ServerSeq and every pushed change is
upserted keyed by (doc_id, server_seq). -/
theorem storeChangeInfos_spec
    (s : Store) (docInfo : DocInfo) (initialServerSeq : Nat) (changes : List Change)
    (henc : (encodeID docInfo.id).isSome)
    (_hne : changes ≠ [])
    (hdist : changes.Pairwise (fun a b => a.serverSeq ≠ b.serverSeq))
    (d : DocInfo) (hd : s.documents.find? (fun x => x.id == docInfo.id) = some d)
    (huniq : ∀ x ∈ s.documents, x.id = docInfo.id → x = d) :
    ((StoreChangeInfos s docInfo initialServerSeq changes).2 =
        some .conflictOnUpdate ↔ d.serverSeq ≠ initialServerSeq) ∧
    (d.serverSeq = initialServerSeq →
      (StoreChangeInfos s docInfo initialServerSeq changes).2 = none ∧
      (StoreChangeInfos s docInfo initialServerSeq changes).1.documents.find?
        (fun x => x.id == docInfo.id) = some { d with serverSeq := docInfo.serverSeq } ∧
      ∀ cn ∈ changes,
        findChange (StoreChangeInfos s docInfo initialServerSeq changes).1.changes
          docInfo.id cn.serverSeq = some (changeRecord docInfo.id cn)) := by
  obtain ⟨e, he⟩ := Option.isSome_iff_exists.mp henc
  have hcas := casDoc_matched docInfo.id initialServerSeq docInfo.serverSeq s.documents
  have hdid : d.id = docInfo.id :=
    beq_iff_eq.mp (find?_pred (fun x : DocInfo => x.id == docInfo.id) hd)
  constructor
  · constructor
    · intro hconf hseq
      have hm : (casDoc s.documents docInfo.id initialServerSeq docInfo.serverSeq).2 = true :=
        hcas.mpr ⟨d, List.mem_of_find?_eq_some hd, hdid, hseq⟩
      have hnone : (StoreChangeInfos s docInfo initialServerSeq changes).2 = none := by
        simp only [StoreChangeInfos, he]
        rw [if_pos hm]
      rw [hnone] at hconf
      exact Option.noConfusion hconf
    · intro hseqne
      have hm : (casDoc s.documents docInfo.id initialServerSeq docInfo.serverSeq).2 = false := by
        cases hb : (casDoc s.documents docInfo.id initialServerSeq docInfo.serverSeq).2
        · rfl
        · exfalso
          obtain ⟨x, hx, hx1, hx2⟩ := hcas.mp hb
          exact hseqne ((huniq x hx hx1) ▸ hx2)
      simp only [StoreChangeInfos, he]
      rw [if_neg (by rw [hm]; exact Bool.false_ne_true)]
  · intro hseq
    have hcf := casDoc_find docInfo.id initialServerSeq docInfo.serverSeq s.documents
      d hd hseq huniq
    refine ⟨?_, ?_, ?_⟩
    · simp only [StoreChangeInfos, he]
      rw [if_pos hcf.1]
    · simp only [StoreChangeInfos, he]
      rw [if_pos hcf.1]
      exact hcf.2
    · intro cn hcn
      simp only [StoreChangeInfos, he]
      rw [if_pos hcf.1]
      exact findChange_foldl_upsert docInfo.id changes s.changes hdist cn hcn

/-- C4 witness: with the stored document at server_seq 3 and
initialServerSeq 3, the CAS hits — no ConflictOnUpdate, the stored server_seq
becomes 4 and the pushed change is stored under (doc_id, 4). -/
theorem storeChangeInfos_spec_witness :
    (StoreChangeInfos wit4Store wit4Doc 3 [wit4Change]).2 = none ∧
    (StoreChangeInfos wit4Store wit4Doc 3 [wit4Change]).1.documents.find?
      (fun x => x.id == wit4Doc.id) = some { wit2Doc with serverSeq := 4 } ∧
    findChange (StoreChangeInfos wit4Store wit4Doc 3 [wit4Change]).1.changes
      wit4Doc.id 4 = some (changeRecord wit4Doc.id wit4Change) := by
  have h := (storeChangeInfos_spec wit4Store wit4Doc 3 [wit4Change] (by decide)
    (by simp) (by simp) wit2Doc (by decide) (by decide)).2 rfl
  exact ⟨h.1, h.2.1, h.2.2 wit4Change (by simp)⟩

/-- C2: with initialServerSeq at least the request checkpoint's serverSeq and
their difference strictly below SnapshotThreshold, pullPack returns a changes
response (snapshot nil) whose list is exactly the persisted changes with
serverSeq in (requestCP.serverSeq, initialServerSeq], in strictly ascending
serverSeq order, with pulled checkpoint pushedCP.NextServerSeq(initialServerSeq);
at a difference of exactly SnapshotThreshold a snapshot response (changes nil)
is returned instead. -/
theorem pullPack_changes_response (conf : Config) (s : Store) (docInfo : DocInfo)
    (requestPack : ChangePack) (pushedCP : Checkpoint) (initialServerSeq : Nat)
    (henc : (encodeID docInfo.id).isSome)
    (hseq : requestPack.checkpoint.serverSeq ≤ initialServerSeq)
    (hdocseq : docInfo.serverSeq = initialServerSeq)
    (hsorted : (s.changes.filter (fun c => c.docId == docInfo.id)).Pairwise
      (fun a b => a.serverSeq < b.serverSeq)) :
    (initialServerSeq - requestPack.checkpoint.serverSeq < conf.snapshotThreshold →
      ∃ L, pullPack conf s docInfo requestPack pushedCP initialServerSeq =
          .ok (NewServerPack docInfo.getKey (pushedCP.nextServerSeq initialServerSeq)
            (some L) none) ∧
        (∀ c, c ∈ L ↔ c ∈ s.changes ∧ c.docId = docInfo.id ∧
          requestPack.checkpoint.serverSeq < c.serverSeq ∧
          c.serverSeq ≤ initialServerSeq) ∧
        L.Pairwise (fun a b => a.serverSeq < b.serverSeq)) ∧
    (initialServerSeq - requestPack.checkpoint.serverSeq = conf.snapshotThreshold →
      ∃ cp snap, pullPack conf s docInfo requestPack pushedCP initialServerSeq =
        .ok (NewServerPack docInfo.getKey cp none (some snap))) := by
  have hnlt : ¬ (initialServerSeq < requestPack.checkpoint.serverSeq) :=
    Nat.not_lt.mpr hseq
  obtain ⟨e, he0⟩ := Option.isSome_iff_exists.mp henc
  have he : encodeID docInfo.id = some docInfo.id := by
    rw [he0, encodeID_eq he0]
  constructor
  · intro hlt
    refine ⟨s.changes.filter (fun c => c.docId == docInfo.id &&
        (decide (requestPack.checkpoint.serverSeq + 1 ≤ c.serverSeq) &&
          decide (c.serverSeq ≤ initialServerSeq))), ?_, ?_, ?_⟩
    · simp only [pullPack, if_neg hnlt, if_pos hlt, pullChangeInfos,
        FindChangeInfosBetweenServerSeqs, he, hdocseq]
    · intro c
      rw [List.mem_filter]
      simp only [Bool.and_eq_true, beq_iff_eq, decide_eq_true_eq, and_assoc,
        Nat.add_one_le_iff]
    · rw [filter_and_eq (fun c => c.docId == docInfo.id)
        (fun c => decide (requestPack.checkpoint.serverSeq + 1 ≤ c.serverSeq) &&
          decide (c.serverSeq ≤ initialServerSeq)) s.changes]
      exact pairwise_filter_of_pairwise _ hsorted
  · intro heq
    have hnlt2 : ¬ (initialServerSeq - requestPack.checkpoint.serverSeq <
        conf.snapshotThreshold) := by
      rw [heq]
      exact Nat.lt_irrefl _
    have hfls : ∃ sn, FindLastSnapshotInfo s docInfo.id = .ok sn := by
      simp only [FindLastSnapshotInfo, he]
      cases lastSnapshotRow s.snapshots docInfo.id
      · exact ⟨_, rfl⟩
      · exact ⟨_, rfl⟩
    obtain ⟨sn, hsn⟩ := hfls
    by_cases hge : initialServerSeq ≤ sn.serverSeq
    · refine ⟨pushedCP.nextServerSeq docInfo.serverSeq, sn.snapshot, ?_⟩
      simp only [pullPack, if_neg hnlt, if_neg hnlt2, pullSnapshot, hsn, if_pos hge]
    · refine ⟨pushedCP.nextServerSeq docInfo.serverSeq,
        ObjectToBytes (ApplyChangePack
          (NewInternalDocumentFromSnapshot docInfo.getKey.collection
            docInfo.getKey.document sn.serverSeq sn.snapshot)
          ⟨docInfo.getKey, Checkpoint.initial.nextServerSeq docInfo.serverSeq,
            s.changes.filter (fun c => c.docId == docInfo.id &&
              (decide (sn.serverSeq + 1 ≤ c.serverSeq) &&
                decide (c.serverSeq ≤ initialServerSeq))), none⟩), ?_⟩
      simp only [pullPack, if_neg hnlt, if_neg hnlt2, pullSnapshot, hsn, if_neg hge,
        FindChangesBetweenServerSeqs, FindChangeInfosBetweenServerSeqs, he]

/-- C2 witness: with three persisted changes, request checkpoint (1, 0) and
threshold 10, exactly the changes at serverSeq 2 and 3 are pulled, ascending,
and the pulled checkpoint is (3, 5). -/
theorem pullPack_changes_response_witness :
    ∃ L, pullPack ⟨10⟩ wit2Store wit2Doc wit2Pack ⟨3, 5⟩ 3 =
        .ok (NewServerPack wit2Doc.getKey (Checkpoint.nextServerSeq ⟨3, 5⟩ 3)
          (some L) none) ∧
      (∀ c, c ∈ L ↔ c ∈ wit2Store.changes ∧ c.docId = wit2Doc.id ∧
        1 < c.serverSeq ∧ c.serverSeq ≤ 3) ∧
      L.Pairwise (fun a b => a.serverSeq < b.serverSeq) := by
  exact (pullPack_changes_response ⟨10⟩ wit2Store wit2Doc wit2Pack ⟨3, 5⟩ 3
    (by decide) (by decide) rfl (by decide)).1 (by decide)

/-- C8: when no snapshot of the document exists, FindLastSnapshotInfo returns
the zero-value SnapshotInfo (ServerSeq 0, empty bytes) without error, and the
pull snapshot path rebuilds from an empty initial document at serverSeq 0,
applying exactly the changes with serverSeq in [1, initialServerSeq]. -/
theorem pullSnapshot_no_snapshot
    (s : Store) (docInfo : DocInfo) (pushedCP : Checkpoint) (initialServerSeq : Nat)
    (henc : (encodeID docInfo.id).isSome)
    (hnone : s.snapshots.filter (fun sn => sn.docId == docInfo.id) = [])
    (hpos : 1 ≤ initialServerSeq) :
    (∃ z, FindLastSnapshotInfo s docInfo.id = .ok z ∧
      z.serverSeq = 0 ∧ z.snapshot = []) ∧
    ∃ L, pullSnapshot s docInfo pushedCP initialServerSeq =
        .ok (pushedCP.nextServerSeq docInfo.serverSeq,
          ObjectToBytes (ApplyChangePack
            (NewInternalDocumentFromSnapshot docInfo.getKey.collection
              docInfo.getKey.document 0 [])
            ⟨docInfo.getKey, Checkpoint.initial.nextServerSeq docInfo.serverSeq,
              L, none⟩)) ∧
      ∀ c, c ∈ L ↔ c ∈ s.changes ∧ c.docId = docInfo.id ∧
        1 ≤ c.serverSeq ∧ c.serverSeq ≤ initialServerSeq := by
  obtain ⟨e, he0⟩ := Option.isSome_iff_exists.mp henc
  have he : encodeID docInfo.id = some docInfo.id := by
    rw [he0, encodeID_eq he0]
  have hlast : lastSnapshotRow s.snapshots docInfo.id = none :=
    (lastSnapshotRow_eq_none_iff _ _).mpr hnone
  have hfls : FindLastSnapshotInfo s docInfo.id = .ok SnapshotInfo.zero := by
    simp only [FindLastSnapshotInfo, he, hlast]
  refine ⟨⟨SnapshotInfo.zero, hfls, rfl, rfl⟩, ?_⟩
  have hngt : ¬ (initialServerSeq ≤ 0) := by omega
  refine ⟨s.changes.filter (fun c => c.docId == docInfo.id &&
      (decide (SnapshotInfo.zero.serverSeq + 1 ≤ c.serverSeq) &&
        decide (c.serverSeq ≤ initialServerSeq))), ?_, ?_⟩
  · simp only [pullSnapshot, hfls, FindChangesBetweenServerSeqs,
      FindChangeInfosBetweenServerSeqs, he, SnapshotInfo.zero]
    rw [if_neg hngt]
  · intro c
    rw [List.mem_filter]
    simp only [SnapshotInfo.zero, Bool.and_eq_true, beq_iff_eq, decide_eq_true_eq,
      and_assoc, Nat.zero_add]

/-- C1 (amended): pullSnapshot selects the latest snapshot of the document
regardless of initialServerSeq (the zero-value snapshot when none exists);
when that snapshot's serverSeq is at least initialServerSeq the snapshot
bytes are returned unchanged with the advanced checkpoint, and otherwise it
rebuilds by deserializing that snapshot, applying exactly the changes with
serverSeq in (snapshot.serverSeq, initialServerSeq], and serializing the root
to bytes. -/
theorem pullSnapshot_selection_amended
    (s : Store) (docInfo : DocInfo) (pushedCP : Checkpoint) (initialServerSeq : Nat)
    (henc : (encodeID docInfo.id).isSome) :
    ∃ snap, FindLastSnapshotInfo s docInfo.id = .ok snap ∧
      (s.snapshots.filter (fun r => r.docId == docInfo.id) = [] →
        snap = SnapshotInfo.zero) ∧
      (∀ sn ∈ s.snapshots, sn.docId = docInfo.id →
        snap ∈ s.snapshots ∧ snap.docId = docInfo.id ∧
          sn.serverSeq ≤ snap.serverSeq) ∧
      (initialServerSeq ≤ snap.serverSeq →
        pullSnapshot s docInfo pushedCP initialServerSeq =
          .ok (pushedCP.nextServerSeq docInfo.serverSeq, snap.snapshot)) ∧
      (snap.serverSeq < initialServerSeq →
        ∃ L, pullSnapshot s docInfo pushedCP initialServerSeq =
            .ok (pushedCP.nextServerSeq docInfo.serverSeq,
              ObjectToBytes (ApplyChangePack
                (NewInternalDocumentFromSnapshot docInfo.getKey.collection
                  docInfo.getKey.document snap.serverSeq snap.snapshot)
                ⟨docInfo.getKey, Checkpoint.initial.nextServerSeq docInfo.serverSeq,
                  L, none⟩)) ∧
          ∀ c, c ∈ L ↔ c ∈ s.changes ∧ c.docId = docInfo.id ∧
            snap.serverSeq < c.serverSeq ∧ c.serverSeq ≤ initialServerSeq) := by
  obtain ⟨e, he0⟩ := Option.isSome_iff_exists.mp henc
  have he : encodeID docInfo.id = some docInfo.id := by
    rw [he0, encodeID_eq he0]
  cases hlast : lastSnapshotRow s.snapshots docInfo.id with
  | none =>
    have hnil := (lastSnapshotRow_eq_none_iff _ _).mp hlast
    have hfls : FindLastSnapshotInfo s docInfo.id = .ok SnapshotInfo.zero := by
      simp only [FindLastSnapshotInfo, he, hlast]
    refine ⟨SnapshotInfo.zero, hfls, fun _ => rfl, ?_, ?_, ?_⟩
    · intro sn hsn hdid
      exfalso
      have hm : sn ∈ s.snapshots.filter (fun r => r.docId == docInfo.id) :=
        List.mem_filter.mpr ⟨hsn, by simp [hdid]⟩
      rw [hnil] at hm
      simp at hm
    · intro hle
      simp only [pullSnapshot, hfls, if_pos hle]
    · intro hlt
      have hngt : ¬ (initialServerSeq ≤ SnapshotInfo.zero.serverSeq) :=
        Nat.not_le.mpr hlt
      refine ⟨s.changes.filter (fun c => c.docId == docInfo.id &&
          (decide (SnapshotInfo.zero.serverSeq + 1 ≤ c.serverSeq) &&
            decide (c.serverSeq ≤ initialServerSeq))), ?_, ?_⟩
      · simp only [pullSnapshot, hfls, if_neg hngt, FindChangesBetweenServerSeqs,
          FindChangeInfosBetweenServerSeqs, he]
      · intro c
        rw [List.mem_filter]
        simp only [SnapshotInfo.zero, Bool.and_eq_true, beq_iff_eq,
          decide_eq_true_eq, and_assoc, Nat.add_one_le_iff]
  | some snap =>
    obtain ⟨hmemf, hmaxf⟩ := lastSnapshotRow_spec _ _ _ hlast
    have hmem : snap ∈ s.snapshots := List.mem_of_mem_filter hmemf
    have hdid : snap.docId = docInfo.id :=
      beq_iff_eq.mp (List.mem_filter.mp hmemf).2
    have hfls : FindLastSnapshotInfo s docInfo.id = .ok snap := by
      simp only [FindLastSnapshotInfo, he, hlast]
    refine ⟨snap, hfls, ?_, ?_, ?_, ?_⟩
    · intro hnil
      rw [hnil] at hmemf
      simp at hmemf
    · intro sn hsn hsndid
      exact ⟨hmem, hdid, hmaxf sn (List.mem_filter.mpr ⟨hsn, by simp [hsndid]⟩)⟩
    · intro hle
      simp only [pullSnapshot, hfls, if_pos hle]
    · intro hlt
      have hngt : ¬ (initialServerSeq ≤ snap.serverSeq) := Nat.not_le.mpr hlt
      refine ⟨s.changes.filter (fun c => c.docId == docInfo.id &&
          (decide (snap.serverSeq + 1 ≤ c.serverSeq) &&
            decide (c.serverSeq ≤ initialServerSeq))), ?_, ?_⟩
      · simp only [pullSnapshot, hfls, if_neg hngt, FindChangesBetweenServerSeqs,
          FindChangeInfosBetweenServerSeqs, he]
      · intro c
        rw [List.mem_filter]
        simp only [Bool.and_eq_true, beq_iff_eq, decide_eq_true_eq, and_assoc,
          Nat.add_one_le_iff]

/-- C1 counterexample: with snapshots at serverSeq 1 and 3 and
initialServerSeq 2 (threshold 1, request checkpoint (0, 0)), the code returns
the bytes of the snapshot at serverSeq 3 unchanged, although the latest
snapshot with serverSeq at most 2 is the one at serverSeq 1 and the claim
prescribes rebuilding from it with the changes in (1, 2] — which yields
different bytes. -/
theorem pullSnapshot_counterexample :
    pullPack ⟨1⟩ cex1Store cex1Doc ⟨⟨"c", "d"⟩, ⟨0, 0⟩, [], none⟩ ⟨2, 0⟩ 2 =
      .ok (NewServerPack ⟨"c", "d"⟩ ⟨2, 0⟩ none (some [2])) ∧
    (⟨docIdA, 1, [1]⟩ : SnapshotInfo) ∈ cex1Store.snapshots ∧
    (∀ sn ∈ cex1Store.snapshots, sn.docId = cex1Doc.id → sn.serverSeq ≤ 2 →
      sn.serverSeq ≤ 1) ∧
    ([2] : Bytes) ≠ ObjectToBytes (ApplyChangePack
      (NewInternalDocumentFromSnapshot "c" "d" 1 [1])
      ⟨⟨"c", "d"⟩, Checkpoint.initial.nextServerSeq 2,
        cex1Store.changes.filter (fun c => c.docId == cex1Doc.id &&
          (decide (1 + 1 ≤ c.serverSeq) && decide (c.serverSeq ≤ 2))), none⟩) := by
  decide

/-- C1 witness for the amended theorem: on the counterexample store the
selected snapshot has serverSeq at least 2, so its bytes are returned
unchanged. -/
theorem pullSnapshot_selection_amended_witness :
    ∃ snap, FindLastSnapshotInfo cex1Store cex1Doc.id = .ok snap ∧
      (2 ≤ snap.serverSeq →
        pullSnapshot cex1Store cex1Doc ⟨2, 0⟩ 2 =
          .ok (Checkpoint.nextServerSeq ⟨2, 0⟩ cex1Doc.serverSeq, snap.snapshot)) := by
  obtain ⟨snap, h1, _, _, h4, _⟩ :=
    pullSnapshot_selection_amended cex1Store cex1Doc ⟨2, 0⟩ 2 (by decide)
  exact ⟨snap, h1, h4⟩

/-- C8 witness: a document with two changes and no snapshot rebuilds from the
empty document, applying the changes at serverSeq 1 and 2. -/
theorem pullSnapshot_no_snapshot_witness :
    (∃ z, FindLastSnapshotInfo wit2Store wit2Doc.id = .ok z ∧
      z.serverSeq = 0 ∧ z.snapshot = []) ∧
    ∃ L, pullSnapshot wit2Store wit2Doc ⟨2, 0⟩ 2 =
        .ok (Checkpoint.nextServerSeq ⟨2, 0⟩ wit2Doc.serverSeq,
          ObjectToBytes (ApplyChangePack
            (NewInternalDocumentFromSnapshot wit2Doc.getKey.collection
              wit2Doc.getKey.document 0 [])
            ⟨wit2Doc.getKey, Checkpoint.initial.nextServerSeq wit2Doc.serverSeq,
              L, none⟩)) ∧
      ∀ c, c ∈ L ↔ c ∈ wit2Store.changes ∧ c.docId = wit2Doc.id ∧
        1 ≤ c.serverSeq ∧ c.serverSeq ≤ 2 :=
  pullSnapshot_no_snapshot wit2Store wit2Doc ⟨2, 0⟩ 2 (by decide) (by decide)
    (by decide)

/-- C5 witness: a request checkpoint serverSeq ahead of initialServerSeq is
rejected with InvalidServerSeq. -/
theorem pullPack_invalidServerSeq_iff_witness :
    pullPack ⟨10⟩ wit2Store wit2Doc wit2Pack ⟨3, 5⟩ 0 = .error .invalidServerSeq :=
  (pullPack_invalidServerSeq_iff ⟨10⟩ wit2Store wit2Doc wit2Pack ⟨3, 5⟩ 0).mpr
    (by decide)

/-- C7: the in-memory internalLocker.TryLock is not non-blocking: on a key
already held by another session it behaves as Lock does — it blocks until the
key is free — and it never returns the Busy outcome. -/
theorem tryLock_blocks_on_held_key :
    internalLockerTryLock ["push-pull:doc1"] "push-pull:doc1" = .blocksUntilFree ∧
    internalLockerTryLock ["push-pull:doc1"] "push-pull:doc1" ≠ .busy ∧
    (∀ held key, internalLockerTryLock held key = lockerLock held key) := by
  exact ⟨by decide, by decide, fun _ _ => rfl⟩

end Yorkie
